import Mathlib

/-
Shallow embedding of `src/src/modules/tasks/tasks.service.ts` (class
`TasksService`) from the scriptassist-nestjs-exercise-task repository.

The external collaborators are modelled explicitly:
  - the Task Store (TypeORM repository) is a list of stored `Task` rows plus
    a counter generating fresh ids on insert;
  - the Notification Queue (BullMQ) is a list of accepted `QueueJob` entries;
    whether the queue accepts an enqueue attempt is passed in as a `Bool`
    parameter (`queueOk`), since the service fires and forgets.
Every service method becomes a pure function `args → ServiceState →
result × ServiceState`.  Methods that can throw at runtime return an
`Except ServiceError _` result.  Note that the source never imports or
throws `NotFoundException`; the `ServiceError.notFound` constructor exists
only so that "signals Not-Found" claims can be stated and settled.
-/

namespace ScriptAssist

/-- Modelled from the spec: the `TaskStatus` enum
(`./enums/task-status.enum`) is not under `src/`; §3 of the spec lists its
members PENDING, IN_PROGRESS, COMPLETED. -/
inductive TaskStatus where
  | PENDING
  | IN_PROGRESS
  | COMPLETED
  deriving DecidableEq, Repr

/-- String value a `TaskStatus` member is persisted as. -/
def TaskStatus.toStr : TaskStatus → String
  | .PENDING => "PENDING"
  | .IN_PROGRESS => "IN_PROGRESS"
  | .COMPLETED => "COMPLETED"

/-- Modelled from the spec: the `TaskPriority` enum is not under `src/`;
§3 of the spec lists its members LOW, MEDIUM, HIGH. -/
inductive TaskPriority where
  | LOW
  | MEDIUM
  | HIGH
  deriving DecidableEq, Repr

/-- String value a `TaskPriority` member is persisted as. -/
def TaskPriority.toStr : TaskPriority → String
  | .LOW => "LOW"
  | .MEDIUM => "MEDIUM"
  | .HIGH => "HIGH"

/-- Modelled from the spec: the `User` entity is not under `src/`; only its
identity matters here (a Task references its owning user). -/
structure User where
  id : Nat
  deriving DecidableEq, Repr

/-- Modelled from the spec: the `Task` entity (`./entities/task.entity`) is
not under `src/`; §3 of the spec lists the fields.  `status` and `priority`
are stored as strings, because `updateStatus` writes an arbitrary string
(`status as any`) into the column; `dueDate` is an optional timestamp;
`user` is the owning-user relation as loaded on the row. -/
structure Task where
  id : Nat
  title : String
  description : String
  status : String
  priority : String
  dueDate : Option Nat
  user : Option User
  deriving DecidableEq, Repr

/-- Modelled from the spec: `CreateTaskDto` is not under `src/`; §3 says a
task is created with caller-supplied title/description/priority/dueDate and
a default status. -/
structure CreateTaskDto where
  title : String
  description : String
  priority : TaskPriority
  dueDate : Option Nat
  deriving DecidableEq, Repr

/-- Modelled from the spec: `UpdateTaskDto` is not under `src/`; §4.1 says
update takes a patch where every field is optional; status and priority
arrive as enum members, dueDate as a date. -/
structure UpdateTaskDto where
  title : Option String
  description : Option String
  status : Option TaskStatus
  priority : Option TaskPriority
  dueDate : Option Nat
  deriving DecidableEq, Repr

/-- A job accepted by the `task-processing` queue: the job name and the
payload `{ taskId, status }` the service passes to `taskQueue.add`. -/
structure QueueJob where
  name : String
  taskId : Nat
  status : String
  deriving DecidableEq, Repr

/-- Runtime failures a service method can surface.  `notFound` stands for
NestJS `NotFoundException`: the source file never imports or throws it (the
throwing branch in `findOne` is commented out), so no method of this
embedding ever produces it.  `nullEntity` is the runtime error raised when
the `null` returned by `findOne` is dereferenced (`task.status` in
`update`/`updateStatus`) or handed to `tasksRepository.remove`. -/
inductive ServiceError where
  | notFound
  | nullEntity
  deriving DecidableEq, Repr

/-- The state the service acts on: the stored task rows in store order, the
next id the store will generate, and the jobs the notification queue has
accepted. -/
structure ServiceState where
  tasks : List Task
  nextId : Nat
  queue : List QueueJob
  deriving DecidableEq, Repr

/-- Modelled from the spec: the entity default status for a newly created
task (§3 "a default status", §8 "whose status is the default"); the entity
file is not under `src/`.  PENDING is the only lifecycle start value. -/
def defaultStatus : String := "PENDING"

namespace TasksService

/-- Lines 20–33: `create` builds the entity from the DTO, saves it (the
store generates the id), then adds a `task-status-update` job with the
saved task id and status, without awaiting or handling queue errors —
`queueOk` says whether the queue accepted the job; either way the saved
task is returned. -/
def create (dto : CreateTaskDto) (queueOk : Bool) (s : ServiceState) :
    Task × ServiceState :=
  let savedTask : Task :=
    { id := s.nextId
      title := dto.title
      description := dto.description
      status := defaultStatus
      priority := dto.priority.toStr
      dueDate := dto.dueDate
      user := none }
  let s1 : ServiceState :=
    { s with tasks := s.tasks ++ [savedTask], nextId := s.nextId + 1 }
  let s2 : ServiceState :=
    if queueOk then
      { s1 with queue := s1.queue ++
          [{ name := "task-status-update"
             taskId := savedTask.id
             status := savedTask.status }] }
    else s1
  (savedTask, s2)

/-- Lines 35–61: `findAll` filters by status/priority when those arguments
are truthy, computes `pageNumber`/`limitNumber` with defaults 1 and 10 for
falsy inputs, then calls `skip((pageNumber - 1) * limitNumber)` and
`take(limit)` — note the raw `limit` argument, not `limitNumber`, is what
reaches `take`, and a falsy `take` value produces no LIMIT clause.
`none` stands for a missing or non-numeric (NaN, hence falsy) argument. -/
def findAll (status priority : Option String) (page limit : Option Nat)
    (s : ServiceState) : List Task × ServiceState :=
  let rows := s.tasks
  let rows := match status with
    | some st => if st != "" then rows.filter (fun (t : Task) => t.status == st) else rows
    | none => rows
  let rows := match priority with
    | some p => if p != "" then rows.filter (fun (t : Task) => t.priority == p) else rows
    | none => rows
  let pageNumber := match page with
    | some p => if p == 0 then 1 else p
    | none => 1
  let limitNumber := match limit with
    | some l => if l == 0 then 10 else l
    | none => 10
  let rows := rows.drop ((pageNumber - 1) * limitNumber)
  let rows := match limit with
    | some l => if l == 0 then rows else rows.take l
    | none => rows
  (rows, s)

/-- The aggregate row `findTasksStatistics` builds with `COUNT(*)` and the
four `SUM(CASE WHEN … THEN 1 ELSE 0 END)` selections (lines 63–83). -/
structure TaskStats where
  total : Nat
  completed : Nat
  inProgress : Nat
  pending : Nat
  highPriority : Nat
  deriving DecidableEq, Repr

/-- The per-row contribution to the aggregate: `COUNT(*)` adds 1 to `total`,
and each `CASE WHEN` adds 1 exactly when its equality test holds. -/
def statsRow (acc : TaskStats) (t : Task) : TaskStats :=
  { total := acc.total + 1
    completed := acc.completed + (if t.status == "COMPLETED" then 1 else 0)
    inProgress := acc.inProgress + (if t.status == "IN_PROGRESS" then 1 else 0)
    pending := acc.pending + (if t.status == "PENDING" then 1 else 0)
    highPriority := acc.highPriority + (if t.priority == "HIGH" then 1 else 0) }

/-- Lines 63–83: `findTasksStatistics` runs the aggregate query over every
stored task at call time and returns the numeric counts. -/
def findTasksStatistics (s : ServiceState) : TaskStats × ServiceState :=
  (s.tasks.foldl statsRow ⟨0, 0, 0, 0, 0⟩, s)

/-- Lines 85–97: `findOne` runs `tasksRepository.findOne({ where: { id },
relations: ["user"] })` and returns the result cast `as Task`.  When no row
matches, the repository yields `null`, which the cast passes straight back
to the caller — nothing is thrown (the `NotFoundException` branch in the
source is commented out).  `Except.ok none` is that returned `null`. -/
def findOne (id : Nat) (s : ServiceState) :
    Except ServiceError (Option Task) × ServiceState :=
  (Except.ok (s.tasks.find? (fun t => t.id == id)), s)

/-- Line 107: `if (updateTaskDto.title) task.title = updateTaskDto.title` —
the empty string is falsy, so it is skipped like an absent field. -/
def patchTitle (task : Task) (v : Option String) : Task :=
  match v with
  | some x => if x != "" then { task with title := x } else task
  | none => task

/-- Line 108: `if (updateTaskDto.description) task.description = …` — the
empty string is falsy, so it is skipped like an absent field. -/
def patchDescription (task : Task) (v : Option String) : Task :=
  match v with
  | some x => if x != "" then { task with description := x } else task
  | none => task

/-- Line 109: `if (updateTaskDto.status) task.status = updateTaskDto.status`
— a present enum member is a non-empty string, hence truthy. -/
def patchStatus (task : Task) (v : Option TaskStatus) : Task :=
  match v with
  | some x => { task with status := x.toStr }
  | none => task

/-- Line 110: `if (updateTaskDto.priority) task.priority = …` — a present
enum member is a non-empty string, hence truthy. -/
def patchPriority (task : Task) (v : Option TaskPriority) : Task :=
  match v with
  | some x => { task with priority := x.toStr }
  | none => task

/-- Line 111: `if (updateTaskDto.dueDate) task.dueDate = …` — a present
Date object is always truthy. -/
def patchDueDate (task : Task) (v : Option Nat) : Task :=
  match v with
  | some x => { task with dueDate := some x }
  | none => task

/-- Lines 106–111 in order: each field of the patch is applied only when
truthy. -/
def applyPatch (task : Task) (dto : UpdateTaskDto) : Task :=
  patchDueDate
    (patchPriority
      (patchStatus
        (patchDescription (patchTitle task dto.title) dto.description)
        dto.status)
      dto.priority)
    dto.dueDate

/-- `tasksRepository.save` on an entity loaded from the store: the row with
the same id is overwritten in place. -/
def saveExisting (t : Task) (s : ServiceState) : ServiceState :=
  { s with tasks := s.tasks.map (fun u => if u.id == t.id then t else u) }

/-- Lines 99–124: `update` loads the task via `findOne` (reading
`task.status` on the `null` result raises a runtime error, modelled as
`ServiceError.nullEntity`), applies each truthy patch field, saves, and —
only when the status value changed — adds a `task-status-update` job with
the updated id and status, fire-and-forget (`queueOk` says whether the
queue accepted it).  The updated task is returned. -/
def update (id : Nat) (dto : UpdateTaskDto) (queueOk : Bool)
    (s : ServiceState) : Except ServiceError Task × ServiceState :=
  match (findOne id s).1 with
  | Except.error e => (Except.error e, s)
  | Except.ok none => (Except.error ServiceError.nullEntity, s)
  | Except.ok (some task) =>
    let originalStatus := task.status
    let updatedTask := applyPatch task dto
    let s1 := saveExisting updatedTask s
    let s2 :=
      if originalStatus != updatedTask.status then
        if queueOk then
          { s1 with queue := s1.queue ++
              [{ name := "task-status-update"
                 taskId := updatedTask.id
                 status := updatedTask.status }] }
        else s1
      else s1
    (Except.ok updatedTask, s2)

/-- Lines 126–130: `remove` loads the task via `findOne` and passes it to
`tasksRepository.remove`.  On a missing id `findOne` yields `null`, and the
repository throws on a `null` entity (modelled as `ServiceError.nullEntity`)
without touching the store; on a hit the row is deleted. -/
def remove (id : Nat) (s : ServiceState) :
    Except ServiceError Unit × ServiceState :=
  match (findOne id s).1 with
  | Except.error e => (Except.error e, s)
  | Except.ok none => (Except.error ServiceError.nullEntity, s)
  | Except.ok (some task) =>
    (Except.ok (),
     { s with tasks := s.tasks.filter (fun u => !(u.id == task.id)) })

/-- Lines 132–136: `findByStatus` runs the raw query
`SELECT * FROM tasks WHERE status = $1` with the enum value. -/
def findByStatus (st : TaskStatus) (s : ServiceState) :
    List Task × ServiceState :=
  (s.tasks.filter (fun t => t.status == st.toStr), s)

/-- Lines 138–143: `updateStatus` loads the task via `findOne` (assigning
`task.status` on the `null` result raises a runtime error, modelled as
`ServiceError.nullEntity`), overwrites `status` with the given string with
no enum validation (`status as any`), and saves. -/
def updateStatus (id : Nat) (status : String) (s : ServiceState) :
    Except ServiceError Task × ServiceState :=
  match (findOne id s).1 with
  | Except.error e => (Except.error e, s)
  | Except.ok none => (Except.error ServiceError.nullEntity, s)
  | Except.ok (some task) =>
    let updatedTask := { task with status := status }
    (Except.ok updatedTask, saveExisting updatedTask s)

end TasksService

/-- Status strings allowed by the `TaskStatus` enum (§3 data-model
invariant). -/
def validStatusStr (x : String) : Bool :=
  x == "PENDING" || x == "IN_PROGRESS" || x == "COMPLETED"

/-- Priority strings allowed by the `TaskPriority` enum (§3 data-model
invariant). -/
def validPriorityStr (x : String) : Bool :=
  x == "LOW" || x == "MEDIUM" || x == "HIGH"

/-- A stored row respecting the §3 data-model invariant: status and
priority are enumerated values. -/
def taskValid (t : Task) : Bool :=
  validStatusStr t.status && validPriorityStr t.priority

/-- The §3 data-model invariant over the whole store. -/
def storeInvariant (s : ServiceState) : Bool :=
  s.tasks.all taskValid

/-- The empty service state: no rows, no accepted jobs. -/
def initState : ServiceState := { tasks := [], nextId := 0, queue := [] }

/-- A well-formed PENDING/LOW row with the given id, for concrete stores. -/
def sampleTask (i : Nat) : Task :=
  { id := i, title := "task", description := "desc", status := "PENDING"
    priority := "LOW", dueDate := none, user := some { id := 1 } }

/-- A store of n sample rows with ids 0..n-1, in store order. -/
def sampleStore (n : Nat) : ServiceState :=
  { tasks := (List.range n).map sampleTask, nextId := n, queue := [] }

/-- A sample creation DTO. -/
def sampleDto : CreateTaskDto :=
  { title := "a", description := "b", priority := TaskPriority.MEDIUM
    dueDate := none }

/-- A row with explicit status and priority strings, for the statistics
example store. -/
def statTask (i : Nat) (st pr : String) : Task :=
  { id := i, title := "t", description := "", status := st, priority := pr
    dueDate := none, user := none }

/-- The §8 statistics example: 3 COMPLETED, 2 IN_PROGRESS, 1 PENDING rows,
exactly 2 of them HIGH priority. -/
def statsStore : ServiceState :=
  { tasks :=
      [ statTask 0 "COMPLETED" "HIGH"
      , statTask 1 "COMPLETED" "LOW"
      , statTask 2 "COMPLETED" "MEDIUM"
      , statTask 3 "IN_PROGRESS" "HIGH"
      , statTask 4 "IN_PROGRESS" "LOW"
      , statTask 5 "PENDING" "LOW" ]
    nextId := 6
    queue := [] }

open TasksService

/-- The five truthiness-gated patch lines collapse to a single record: each
field keeps its stored value unless the patch carries a truthy value for
it; id and owning user are never written. -/
theorem applyPatch_eq (t : Task) (dto : UpdateTaskDto) :
    applyPatch t dto =
      { id := t.id
        title := match dto.title with
          | some x => if x != "" then x else t.title
          | none => t.title
        description := match dto.description with
          | some x => if x != "" then x else t.description
          | none => t.description
        status := match dto.status with
          | some x => x.toStr
          | none => t.status
        priority := match dto.priority with
          | some x => x.toStr
          | none => t.priority
        dueDate := match dto.dueDate with
          | some x => some x
          | none => t.dueDate
        user := t.user } := by
  obtain ⟨a, b, c, d, e⟩ := dto
  cases a <;> cases b <;> cases c <;> cases d <;> cases e <;>
    simp only [applyPatch, patchTitle, patchDescription, patchStatus,
      patchPriority, patchDueDate] <;>
    first
      | rfl
      | (split <;> first | rfl | (split <;> rfl))

/-- Every `TaskStatus` member is persisted as a valid status string. -/
theorem validStatusStr_toStr (x : TaskStatus) :
    validStatusStr x.toStr = true := by
  cases x <;> rfl

/-- Every `TaskPriority` member is persisted as a valid priority string. -/
theorem validPriorityStr_toStr (x : TaskPriority) :
    validPriorityStr x.toStr = true := by
  cases x <;> rfl

/-- Applying a patch to a valid row yields a valid row: status and priority
are only ever overwritten with enum members. -/
theorem taskValid_applyPatch (t : Task) (dto : UpdateTaskDto)
    (ht : taskValid t = true) :
    taskValid (applyPatch t dto) = true := by
  have h1 := (Bool.and_eq_true _ _).mp ht
  rw [applyPatch_eq]
  simp only [taskValid, Bool.and_eq_true]
  refine ⟨?_, ?_⟩
  · cases h : dto.status with
    | some x => simpa using validStatusStr_toStr x
    | none => simpa using h1.1
  · cases h : dto.priority with
    | some x => simpa using validPriorityStr_toStr x
    | none => simpa using h1.2

/-- Overwriting the row with a given id by a valid row keeps the store
invariant. -/
theorem storeInvariant_saveExisting (t : Task) (s : ServiceState)
    (hs : storeInvariant s = true) (ht : taskValid t = true) :
    storeInvariant (saveExisting t s) = true := by
  simp only [storeInvariant, saveExisting, List.all_eq_true] at *
  intro u hu
  rcases List.mem_map.mp hu with ⟨v, hv, rfl⟩
  by_cases h : (v.id == t.id) = true
  · simpa [h] using ht
  · simpa [h] using hs v hv

/-- The aggregate fold computes the row count and the four conditional
counts on top of any accumulator. -/
theorem foldl_statsRow (l : List Task) (acc : TaskStats) :
    l.foldl statsRow acc =
      { total := acc.total + l.length
        completed := acc.completed +
          l.countP (fun t => t.status == "COMPLETED")
        inProgress := acc.inProgress +
          l.countP (fun t => t.status == "IN_PROGRESS")
        pending := acc.pending + l.countP (fun t => t.status == "PENDING")
        highPriority := acc.highPriority +
          l.countP (fun t => t.priority == "HIGH") } := by
  induction l generalizing acc with
  | nil => simp
  | cons hd tl ih =>
    simp only [List.foldl_cons, ih, statsRow, List.countP_cons,
      List.length_cons, TaskStats.mk.injEq]
    refine ⟨?_, ?_, ?_, ?_, ?_⟩ <;> (try split_ifs) <;> omega

/-- C1: create persists exactly one new task and returns that persisted
task; neither the returned task nor the stored rows depend on whether the
queue accepted the job, and when the queue succeeds exactly one
task-status-update job carrying the saved task id and status is
appended, while a queue failure appends nothing. -/
theorem create_persists_and_enqueues_best_effort (dto : CreateTaskDto)
    (queueOk : Bool) (s : ServiceState) :
    ((create dto queueOk s).2.tasks = s.tasks ++ [(create dto queueOk s).1])
    ∧ (create dto queueOk s).1 = (create dto true s).1
    ∧ (create dto queueOk s).2.tasks = (create dto true s).2.tasks
    ∧ (create dto true s).2.queue = s.queue ++
        [{ name := "task-status-update"
           taskId := (create dto true s).1.id
           status := (create dto true s).1.status }]
    ∧ (create dto false s).2.queue = s.queue := by
  cases queueOk <;> simp [create]

/-- C6 is a code bug: on an 11-row store with page and limit both omitted,
findAll falls back to pageNumber 1 and limitNumber 10 for skip, but take
receives the raw limit argument (absent), so no row limit is applied and
all 11 rows come back instead of at most 10. -/
theorem findAll_omitted_limit_returns_all_rows :
    (findAll none none none none (sampleStore 11)).1.length = 11
    ∧ (findAll none none none none (sampleStore 11)).1
        = (sampleStore 11).tasks := by
  exact ⟨rfl, rfl⟩

/-- C7: with no filters, page 2 and limit 10, findAll on a 25-row store
returns exactly rows 11 through 20 in store order: it skips
(page-1)*limit = 10 rows and takes limit = 10 rows. -/
theorem findAll_page2_limit10_returns_rows_11_to_20 (s : ServiceState)
    (_h : s.tasks.length = 25) :
    (findAll none none (some 2) (some 10) s).1 = (s.tasks.drop 10).take 10 := by
  rfl

/-- C7 witness: the 25-row sample store. -/
theorem findAll_page2_limit10_witness :
    (sampleStore 25).tasks.length = 25
    ∧ (findAll none none (some 2) (some 10) (sampleStore 25)).1
        = ((sampleStore 25).tasks.drop 10).take 10 :=
  ⟨by rfl, findAll_page2_limit10_returns_rows_11_to_20 (sampleStore 25) (by rfl)⟩

/-- C8: findTasksStatistics returns, from the store state at call time, the
total row count, the per-status counts and the HIGH-priority count; on the
example store of 3 COMPLETED, 2 IN_PROGRESS, 1 PENDING rows with 2 HIGH
priorities it returns totals 6/3/2/1/2. -/
theorem findTasksStatistics_counts :
    (∀ s : ServiceState,
      (findTasksStatistics s).1 =
        { total := s.tasks.length
          completed := s.tasks.countP (fun t => t.status == "COMPLETED")
          inProgress := s.tasks.countP (fun t => t.status == "IN_PROGRESS")
          pending := s.tasks.countP (fun t => t.status == "PENDING")
          highPriority := s.tasks.countP (fun t => t.priority == "HIGH") })
    ∧ (findTasksStatistics statsStore).1 =
        { total := 6, completed := 3, inProgress := 2, pending := 1
          highPriority := 2 } := by
  constructor
  · intro s
    simp [findTasksStatistics, foldl_statsRow]
  · rfl

/-- C10: findAll, findTasksStatistics, findOne, findByStatus, remove and
updateStatus never touch the notification queue, whatever their inputs and
outcomes; only create and update add jobs. -/
theorem only_create_and_update_enqueue (s : ServiceState) :
    (∀ st pr pg lim, (findAll st pr pg lim s).2.queue = s.queue)
    ∧ (findTasksStatistics s).2.queue = s.queue
    ∧ (∀ id, (findOne id s).2.queue = s.queue)
    ∧ (∀ st, (findByStatus st s).2.queue = s.queue)
    ∧ (∀ id, (remove id s).2.queue = s.queue)
    ∧ (∀ id v, (updateStatus id v s).2.queue = s.queue) := by
  refine ⟨fun st pr pg lim => rfl, rfl, fun id => rfl, fun st => rfl,
    ?_, ?_⟩
  · intro id
    cases h : s.tasks.find? (fun t => t.id == id) <;>
      simp [remove, findOne, h]
  · intro id v
    cases h : s.tasks.find? (fun t => t.id == id) <;>
      simp [updateStatus, findOne, h, saveExisting]

/-- C4 counterexample: on the empty store, findOne with id 7 hands the
null row (Except.ok none) back to the caller; it does not signal
Not-Found — the throwing branch of the source is commented out. -/
theorem findOne_missing_returns_null :
    (findOne 7 initState).1 = Except.ok none
    ∧ (findOne 7 initState).1 ≠ Except.error ServiceError.notFound := by
  refine ⟨rfl, fun h => ?_⟩
  exact Except.noConfusion h

/-- C4 amended: findOne returns the stored row, its owning user included,
when a row with the id exists, and returns the null row (cast as Task, with
no Not-Found signal) when none does; the state is untouched either way. -/
theorem findOne_returns_row_or_null (id : Nat) (s : ServiceState) :
    (s.tasks.find? (fun t => t.id == id) = none →
      findOne id s = (Except.ok none, s))
    ∧ (∀ t, s.tasks.find? (fun t => t.id == id) = some t →
      findOne id s = (Except.ok (some t), s)) := by
  constructor
  · intro h
    simp [findOne, h]
  · intro t h
    simp [findOne, h]

/-- C4 witness: one-row store, present id 0 and absent id 5. -/
theorem findOne_returns_row_or_null_witness :
    (sampleStore 1).tasks.find? (fun t => t.id == 0) = some (sampleTask 0)
    ∧ findOne 0 (sampleStore 1) = (Except.ok (some (sampleTask 0)), sampleStore 1) :=
  ⟨by rfl,
    (findOne_returns_row_or_null 0 (sampleStore 1)).2 (sampleTask 0) (by rfl)⟩

/-- C5 counterexample: remove with id 7 on the empty store raises the
null-entity runtime error — not a Not-Found signal — and leaves the state
unchanged. -/
theorem remove_missing_not_notFound :
    remove 7 initState = (Except.error ServiceError.nullEntity, initState)
    ∧ (remove 7 initState).1 ≠ Except.error ServiceError.notFound := by
  refine ⟨rfl, fun h => ?_⟩
  have h2 : ServiceError.nullEntity = ServiceError.notFound :=
    Except.error.inj h
  exact ServiceError.noConfusion h2

/-- C5 amended: remove on an id with no stored row fails with the
null-entity runtime error (the null from findOne is handed to the
repository), not a Not-Found signal, and leaves the store unchanged; on a
stored id it succeeds and deletes exactly the rows carrying that id. -/
theorem remove_deletes_or_errors_unchanged (id : Nat) (s : ServiceState) :
    (s.tasks.find? (fun t => t.id == id) = none →
      remove id s = (Except.error ServiceError.nullEntity, s))
    ∧ (∀ t, s.tasks.find? (fun t => t.id == id) = some t →
      remove id s = (Except.ok (),
        { s with tasks := s.tasks.filter (fun u => !(u.id == t.id)) })) := by
  constructor
  · intro h
    simp [remove, findOne, h]
  · intro t h
    simp [remove, findOne, h]

/-- C5 witness: one-row store, removing the present id 0 deletes the row. -/
theorem remove_deletes_or_errors_unchanged_witness :
    (sampleStore 1).tasks.find? (fun t => t.id == 0) = some (sampleTask 0)
    ∧ remove 0 (sampleStore 1) = (Except.ok (),
        { sampleStore 1 with
            tasks := (sampleStore 1).tasks.filter
              (fun u => !(u.id == (sampleTask 0).id)) }) :=
  ⟨by rfl,
    (remove_deletes_or_errors_unchanged 0 (sampleStore 1)).2 (sampleTask 0) (by rfl)⟩

/-- C2: update on an existing task, with the queue accepting, appends
exactly one task-status-update job carrying the new status precisely when
the patch changes the stored status value; a patch with no status, or with
a status equal to the stored one, appends no job. -/
theorem update_enqueues_iff_status_changed (id : Nat) (s : ServiceState)
    (t : Task) (dto : UpdateTaskDto)
    (h : s.tasks.find? (fun u => u.id == id) = some t) :
    (dto.status = none → (update id dto true s).2.queue = s.queue)
    ∧ (∀ v, dto.status = some v → v.toStr = t.status →
        (update id dto true s).2.queue = s.queue)
    ∧ (∀ v, dto.status = some v → v.toStr ≠ t.status →
        (update id dto true s).2.queue = s.queue ++
          [{ name := "task-status-update"
             taskId := t.id
             status := v.toStr }]) := by
  have hok : (findOne id s).1 = Except.ok (some t) := by
    simp [findOne, h]
  refine ⟨?_, ?_, ?_⟩
  · intro h0
    have hst : (applyPatch t dto).status = t.status := by
      rw [applyPatch_eq]
      simp [h0]
    simp [update, hok, hst, saveExisting]
  · intro v h0 heq
    have hst : (applyPatch t dto).status = t.status := by
      rw [applyPatch_eq]
      simp [h0, heq]
    simp [update, hok, hst, saveExisting]
  · intro v h0 hne
    have hst : (applyPatch t dto).status = v.toStr := by
      rw [applyPatch_eq]
      simp [h0]
    have hid : (applyPatch t dto).id = t.id := by
      rw [applyPatch_eq]
    have hbne : (t.status != (applyPatch t dto).status) = true := by
      rw [hst, bne_iff_ne]
      exact fun hh => hne hh.symm
    have hne2 : t.status ≠ v.toStr := fun hh => hne hh.symm
    simp [update, hok, hbne, saveExisting, hst, hid, hne2]

/-- C2 witness: one-row PENDING store; a patch moving the status to
COMPLETED appends exactly the one expected job. -/
theorem update_enqueues_iff_status_changed_witness :
    (sampleStore 1).tasks.find? (fun u => u.id == 0) = some (sampleTask 0)
    ∧ (UpdateTaskDto.mk none none (some TaskStatus.COMPLETED) none
        none).status = some TaskStatus.COMPLETED
    ∧ TaskStatus.COMPLETED.toStr ≠ (sampleTask 0).status
    ∧ (update 0 (UpdateTaskDto.mk none none (some TaskStatus.COMPLETED)
          none none) true (sampleStore 1)).2.queue
        = (sampleStore 1).queue ++
          [{ name := "task-status-update"
             taskId := (sampleTask 0).id
             status := TaskStatus.COMPLETED.toStr }] :=
  ⟨by rfl, by rfl, by decide,
    (update_enqueues_iff_status_changed 0 (sampleStore 1) (sampleTask 0)
        (UpdateTaskDto.mk none none (some TaskStatus.COMPLETED) none none)
        (by rfl)).2.2
      TaskStatus.COMPLETED (by rfl) (by decide)⟩

/-- C3: update on an existing task returns the merge in which each field
keeps its stored value unless the patch carries it truthy — an omitted
field or a present-but-falsy one (the empty string) is skipped, id and
owning user are never written — and a patch carrying only a status changes
only the status field. -/
theorem update_applies_only_truthy_fields (id : Nat) (s : ServiceState)
    (t : Task) (dto : UpdateTaskDto) (q : Bool)
    (h : s.tasks.find? (fun u => u.id == id) = some t) :
    ((update id dto q s).1 = Except.ok
      { id := t.id
        title := match dto.title with
          | some x => if x != "" then x else t.title
          | none => t.title
        description := match dto.description with
          | some x => if x != "" then x else t.description
          | none => t.description
        status := match dto.status with
          | some x => x.toStr
          | none => t.status
        priority := match dto.priority with
          | some x => x.toStr
          | none => t.priority
        dueDate := match dto.dueDate with
          | some x => some x
          | none => t.dueDate
        user := t.user })
    ∧ (∀ st, (update id (UpdateTaskDto.mk none none (some st) none none)
        q s).1 = Except.ok { t with status := st.toStr }) := by
  have hok : (findOne id s).1 = Except.ok (some t) := by
    simp [findOne, h]
  constructor
  · have hfst : (update id dto q s).1 = Except.ok (applyPatch t dto) := by
      simp [update, hok]
    rw [hfst, applyPatch_eq]
  · intro st
    have hfst : (update id (UpdateTaskDto.mk none none (some st) none none)
        q s).1 = Except.ok
          (applyPatch t (UpdateTaskDto.mk none none (some st) none none)) := by
      simp [update, hok]
    rw [hfst, applyPatch_eq]

/-- C3 witness: one-row store; the only-status patch rewrites only the
status field of the stored row. -/
theorem update_applies_only_truthy_fields_witness :
    (sampleStore 1).tasks.find? (fun u => u.id == 0) = some (sampleTask 0)
    ∧ (update 0 (UpdateTaskDto.mk none none (some TaskStatus.IN_PROGRESS)
        none none) true (sampleStore 1)).1
      = Except.ok { sampleTask 0 with status := "IN_PROGRESS" } :=
  ⟨by rfl,
    (update_applies_only_truthy_fields 0 (sampleStore 1) (sampleTask 0)
        (UpdateTaskDto.mk none none (some TaskStatus.IN_PROGRESS) none none)
        true (by rfl)).2
      TaskStatus.IN_PROGRESS⟩

/-- C9 counterexample: the one-row sample store satisfies the enum
invariant, yet updateStatus with the arbitrary string BOGUS persists a
status outside the enumeration, so not every operation preserves the
invariant. -/
theorem updateStatus_can_break_invariant :
    storeInvariant (sampleStore 1) = true
    ∧ storeInvariant (updateStatus 0 "BOGUS" (sampleStore 1)).2 = false := by
  exact ⟨by decide, by decide⟩

/-- C9 amended: create, update and remove preserve the invariant that every
stored status and priority is an enumerated value, and updateStatus
preserves it when — and, per the counterexample, only when trusted with —
a status argument that is itself an enumerated value; with an arbitrary
non-enum string it can persist that string. -/
theorem operations_preserve_invariant_except_updateStatus :
    (∀ dto q s, storeInvariant s = true →
      storeInvariant (create dto q s).2 = true)
    ∧ (∀ id dto q s, storeInvariant s = true →
      storeInvariant (update id dto q s).2 = true)
    ∧ (∀ id s, storeInvariant s = true →
      storeInvariant (remove id s).2 = true)
    ∧ (∀ id v s, storeInvariant s = true → validStatusStr v = true →
      storeInvariant (updateStatus id v s).2 = true) := by
  refine ⟨?_, ?_, ?_, ?_⟩
  · intro dto q s hs
    cases q <;>
      simp_all [create, storeInvariant, List.all_append, taskValid,
        validStatusStr, defaultStatus, validPriorityStr_toStr]
  · intro id dto q s hs
    cases h : s.tasks.find? (fun u => u.id == id) with
    | none => simpa [update, findOne, h] using hs
    | some t =>
      have ht : taskValid t = true :=
        (List.all_eq_true.mp hs) t (List.mem_of_find?_eq_some h)
      have hsave := storeInvariant_saveExisting (applyPatch t dto) s hs
        (taskValid_applyPatch t dto ht)
      simp only [update, findOne, h]
      split_ifs <;> simpa [storeInvariant] using hsave
  · intro id s hs
    cases h : s.tasks.find? (fun u => u.id == id) with
    | none => simpa [remove, findOne, h] using hs
    | some t =>
      simp only [remove, findOne, h, storeInvariant, List.all_eq_true] at *
      intro u hu
      exact hs u (List.mem_of_mem_filter hu)
  · intro id v s hs hv
    cases h : s.tasks.find? (fun u => u.id == id) with
    | none => simpa [updateStatus, findOne, h] using hs
    | some t =>
      have ht : taskValid t = true :=
        (List.all_eq_true.mp hs) t (List.mem_of_find?_eq_some h)
      have ht2 : taskValid { t with status := v } = true := by
        have h2 := (Bool.and_eq_true _ _).mp ht
        simp [taskValid, hv, h2.2]
      have hsave := storeInvariant_saveExisting { t with status := v } s hs ht2
      simpa [updateStatus, findOne, h] using hsave

/-- C9 witness: a two-row valid store stays valid when updateStatus writes
the enumerated COMPLETED value. -/
theorem operations_preserve_invariant_witness :
    storeInvariant (sampleStore 2) = true
    ∧ validStatusStr (TaskStatus.COMPLETED.toStr) = true
    ∧ storeInvariant
        (updateStatus 0 (TaskStatus.COMPLETED.toStr) (sampleStore 2)).2
      = true :=
  ⟨by decide, by decide,
    operations_preserve_invariant_except_updateStatus.2.2.2 0
      (TaskStatus.COMPLETED.toStr) (sampleStore 2) (by decide) (by decide)⟩

end ScriptAssist
